import Mathlib

/-!
Verification of the local text-analysis engine of the `cmbi` corpus-linguistics
workbench (source: `src/utils/nlp.ts` and the POS aggregator of
`src/components/AnalysisView.tsx`).

The TypeScript code is shallowly embedded: strings become `List Char` / `String`,
JS `number` becomes `ℚ` (all quantities here are exact integer counts and their
ratios), JS objects used as frequency maps become association lists in first-insertion
order — but with the prototype chain kept: a read of a missing key can find an
inherited `Object.prototype` property, so the stored values are numbers or (after
the `constructor` collision) strings, and a possibly-NaN division result is a
separate sum type.  The (possibly non-terminating) KWIC `while` loop becomes a
fuel-indexed function returning `Option`, where `none` models a scan that has not
finished within the given fuel.  All definitions are executable.
-/

namespace Cmbi

/-! ## Data model (src/types.ts) -/

inductive Language where
  | ENGLISH
  | SPANISH
  | UNKNOWN
deriving DecidableEq, Repr

inductive SentimentLabel where
  | Positive
  | Negative
  | Neutral
deriving DecidableEq, Repr

structure SentimentResult where
  score : ℚ
  label : SentimentLabel
deriving DecidableEq, Repr

/-- Eight integer percentage fields (src/types.ts `PosBreakdown`). -/
structure PosBreakdown where
  nouns : ℤ
  verbs : ℤ
  adjectives : ℤ
  adverbs : ℤ
  pronouns : ℤ
  determiners : ℤ
  conjunctions : ℤ
  others : ℤ
deriving DecidableEq, Repr

/-- The fields of `CorpusDocument` that the analysis engine reads. -/
structure CorpusDocument where
  title : String
  content : String
  language : Language
  posData : Option PosBreakdown
deriving DecidableEq, Repr

structure KwicResult where
  left : String
  node : String
  right : String
  docId : String
deriving DecidableEq, Repr

/-- A value stored in the frequency-counting plain JS object.  The intended
values are integer counts, but the object keeps its prototype chain: on the
key "constructor" the first read of `frequencyMap[token]` finds the inherited,
truthy `Object.prototype.constructor`, `(… || 0) + 1` string-concatenates, and
a non-numeric string value is installed (see claims C5/C6). -/
inductive JsVal where
  | num (n : ℕ)
  | str (s : String)
deriving DecidableEq, Repr

/-- A JS number that may be NaN (the result of dividing a non-numeric string
count by the token total). -/
inductive JsNum where
  | nan
  | val (q : ℚ)
deriving DecidableEq, Repr

structure TokenFrequency where
  token : String
  count : JsVal
  frequency : JsNum
deriving DecidableEq, Repr

/-! ## Character classes -/

/-- JS regex `\s` (ECMAScript WhiteSpace ∪ LineTerminator). -/
def isJsWs (c : Char) : Bool :=
  c = ' ' || c = '\t' || c = '\n' || c = '\r' || c = Char.ofNat 11 || c = Char.ofNat 12 ||
  c = Char.ofNat 0xa0 || c = Char.ofNat 0x1680 ||
  (Char.ofNat 0x2000 ≤ c && c ≤ Char.ofNat 0x200a) ||
  c = Char.ofNat 0x2028 || c = Char.ofNat 0x2029 || c = Char.ofNat 0x202f ||
  c = Char.ofNat 0x205f || c = Char.ofNat 0x3000 || c = Char.ofNat 0xfeff

/-- ECMAScript LineTerminator characters (what `.` in a JS regex does not match,
and where a multiline `^` / `$` anchors). -/
def isLineTerm (c : Char) : Bool :=
  c = '\n' || c = '\r' || c = Char.ofNat 0x2028 || c = Char.ofNat 0x2029

/-- ASCII case folding; models `String.prototype.toLowerCase` on the character
ranges the engine and its lexicons actually use. -/
def jsToLower (c : Char) : Char := Char.toLower c

/-! ## Tokenizer (src/utils/nlp.ts, lines 157-170) -/

/-- The character class of `replace(/[.,\/#!$%^&*;:{}=\-_`~()"“”«»]/g, "")`. -/
def isTokenPunct (c : Char) : Bool :=
  c = '.' || c = ',' || c = '/' || c = '#' || c = '!' || c = '$' || c = '%' ||
  c = '^' || c = '&' || c = '*' || c = ';' || c = ':' || c = '{' || c = '}' ||
  c = '=' || c = '-' || c = '_' || c = Char.ofNat 96 || c = '~' || c = '(' ||
  c = ')' || c = '"' || c = Char.ofNat 0x201C || c = Char.ofNat 0x201D ||
  c = Char.ofNat 0xAB || c = Char.ofNat 0xBB

/-- One pass of `replace(/\s{2,}/g, " ")`: every maximal run of two or more
whitespace characters becomes a single space; an isolated whitespace character
is left unchanged.  Fuel-indexed for structural recursion; each step consumes
at least one character, so `length + 1` fuel always suffices. -/
def collapseWsFuel : ℕ → List Char → List Char
  | 0, l => l
  | _ + 1, [] => []
  | fuel + 1, c :: rest =>
    if isJsWs c && rest.head?.any isJsWs then
      ' ' :: collapseWsFuel fuel (rest.dropWhile isJsWs)
    else
      c :: collapseWsFuel fuel rest

def collapseWs (l : List Char) : List Char := collapseWsFuel (l.length + 1) l

/-- JS `split(" ")` on a character list. `"".split(" ") = [""]`. -/
def splitOnSpace : List Char → List (List Char)
  | [] => [[]]
  | c :: rest =>
    let r := splitOnSpace rest
    if c = ' ' then
      [] :: r
    else
      match r with
      | h :: t => (c :: h) :: t
      | [] => [[c]]

/-- `STOPWORDS.EN` (src/utils/nlp.ts line 152). -/
def STOPWORDS_EN : List String :=
  ["the", "be", "to", "of", "and", "a", "in", "that", "have", "i", "it", "for",
   "not", "on", "with", "he", "as", "you", "do", "at", "this", "but", "his",
   "by", "from", "they", "we", "say", "her", "she", "or", "an", "will", "my",
   "one", "all", "would", "there", "their", "what", "so", "up", "out", "if",
   "about", "who", "get", "which", "go", "me"]

/-- `STOPWORDS.ES` (src/utils/nlp.ts line 153). -/
def STOPWORDS_ES : List String :=
  ["de", "la", "que", "el", "en", "y", "a", "los", "del", "se", "las", "por",
   "un", "para", "con", "no", "una", "su", "al", "lo", "como", "más", "pero",
   "sus", "le", "ya", "o", "este", "sí", "porque", "esta", "entre", "cuando",
   "muy", "sin", "sobre", "también", "me", "hasta", "hay", "donde", "quien",
   "desde", "todo", "nos"]

/-- `lang === Language.SPANISH ? STOPWORDS.ES : STOPWORDS.EN`. -/
def stopwordsFor (lang : Language) : List String :=
  if lang = Language.SPANISH then STOPWORDS_ES else STOPWORDS_EN

/-- `tokenize(text, removeStopwords, lang)` (src/utils/nlp.ts lines 157-170):
lower-case, strip the fixed punctuation class, collapse whitespace runs of
length ≥ 2 to one space, split on single spaces, drop empty strings, then
optionally drop the stopwords selected by `lang`. -/
def tokenize (text : String) (removeStopwords : Bool) (lang : Language) : List String :=
  let cleaned := (text.data.map jsToLower).filter (fun c => !isTokenPunct c)
  let tokens := ((splitOnSpace (collapseWs cleaned)).map String.mk).filter
    (fun t => t.length > 0)
  if removeStopwords then
    tokens.filter (fun t => !(stopwordsFor lang).contains t)
  else
    tokens

/-! ## Text normalizer (src/utils/nlp.ts, lines 138-149)

`cleanCorpusText` is a chain of eight JS `String.replace` calls with concrete
regexes, followed by `trim()`.  Each replace is embedded as a left-to-right
scanner with the same leftmost-match semantics as a global JS regex; none of
the regexes can match the empty string, so the scan position always advances.
Scanners whose recursion is not structural carry a fuel argument; every step
consumes at least one character, so `length + 1` fuel always suffices. -/

/-- `replace(/\*\*/g, '')`. -/
def removeBoldMd : List Char → List Char
  | '*' :: '*' :: rest => removeBoldMd rest
  | c :: rest => c :: removeBoldMd rest
  | [] => []

/-- `replace(/#{1,6}\s/g, '')`.  A greedy `#{1,6}` followed by `\s` matches at a
position exactly when the whole run of `#` starting there has length 1-6 and is
followed by a whitespace character (shorter backtracked counts always see `#`,
not `\s`, at the test position). -/
def removeHashFuel : ℕ → List Char → List Char
  | 0, l => l
  | _ + 1, [] => []
  | fuel + 1, c :: rest =>
    if c = '#' then
      let j := ((c :: rest).takeWhile (fun d => d = '#')).length
      if j ≤ 6 && ((c :: rest).drop j).head?.any isJsWs then
        removeHashFuel fuel ((c :: rest).drop (j + 1))
      else
        c :: removeHashFuel fuel rest
    else
      c :: removeHashFuel fuel rest

/-- Case-insensitive prefix test (the patterns are given lower-cased). -/
def isPrefixCI : List Char → List Char → Bool
  | [], _ => true
  | _ :: _, [] => false
  | p :: ps, c :: cs => p = jsToLower c && isPrefixCI ps cs

/-- The alternatives of `/^(Title:|Subject:|Here is a text|Video:|Assignment:|Student:|Date:|Instruction:).+$/gim`, lower-cased. -/
def metaPrefixes : List (List Char) :=
  (["title:", "subject:", "here is a text", "video:", "assignment:", "student:",
    "date:", "instruction:"] : List String).map String.data

/-- A line matches the meta-header regex iff it starts with one of the prefixes
(case-insensitively) and `.+` can consume at least one further character. -/
def isMetaLine (line : List Char) : Bool :=
  metaPrefixes.any (fun p => isPrefixCI p line && p.length < line.length)

/-- `replace(/^(Title:|…|Instruction:).+$/gim, '')`: with the `m` flag the
regex works line by line (terminator characters are kept, the matched line
content is dropped). -/
def removeMetaLinesAux (cur : List Char) : List Char → List Char
  | [] => if isMetaLine cur.reverse then [] else cur.reverse
  | c :: rest =>
    if isLineTerm c then
      (if isMetaLine cur.reverse then [] else cur.reverse) ++ c :: removeMetaLinesAux [] rest
    else
      removeMetaLinesAux (c :: cur) rest

/-- The alternatives of `/(Write a .*|Here is the .*|Please generate .*)/gi`,
lower-cased. -/
def promptPhrases : List (List Char) :=
  (["write a ", "here is the ", "please generate "] : List String).map String.data

/-- `replace(/(Write a .*|Here is the .*|Please generate .*)/gi, '')`: at the
first position where one of the phrases starts, `.*` greedily consumes to the
end of the line; scanning resumes there. -/
def removePromptsFuel : ℕ → List Char → List Char
  | 0, l => l
  | _ + 1, [] => []
  | fuel + 1, c :: rest =>
    if promptPhrases.any (fun p => isPrefixCI p (c :: rest)) then
      removePromptsFuel fuel ((c :: rest).dropWhile (fun d => !isLineTerm d))
    else
      c :: removePromptsFuel fuel rest

/-- Scans for the first `]` reachable without crossing a line terminator
(`.` does not match line terminators), returning the remainder after it. -/
def findCloseBracket : List Char → Option (List Char)
  | [] => none
  | c :: rest =>
    if c = ']' then some rest
    else if isLineTerm c then none
    else findCloseBracket rest

/-- `replace(/\[.*?\]/g, '')`: a lazy `.*?` makes the match run from a `[` to
the first `]` on the same line; a `[` with no such `]` does not match. -/
def removeBracketsFuel : ℕ → List Char → List Char
  | 0, l => l
  | _ + 1, [] => []
  | fuel + 1, c :: rest =>
    if c = '[' then
      match findCloseBracket rest with
      | some rest2 => removeBracketsFuel fuel rest2
      | none => c :: removeBracketsFuel fuel rest
    else
      c :: removeBracketsFuel fuel rest

/-- `^\s*[-*]\s+` can only match with the maximal whitespace run after the
anchor (a backtracked shorter `\s*` sees whitespace, not `[-*]`).  Returns the
remainder after the greedy trailing `\s+` and whether the scan position is at a
line start afterwards (i.e. the last consumed whitespace is a terminator). -/
def tryBullet (l : List Char) : Option (List Char × Bool) :=
  match l.dropWhile isJsWs with
  | b :: rest2 =>
    if (b = '-' || b = '*') && rest2.head?.any isJsWs then
      some (rest2.dropWhile isJsWs, (rest2.takeWhile isJsWs).getLast?.any isLineTerm)
    else
      none
  | [] => none

/-- `replace(/^\s*[-*]\s+/gm, '')`: the `m`-flag `^` anchors at the string start
and right after each line terminator; `atStart` tracks that. -/
def removeBulletsFuel : ℕ → Bool → List Char → List Char
  | 0, _, l => l
  | _ + 1, _, [] => []
  | fuel + 1, atStart, c :: rest =>
    if atStart then
      match tryBullet (c :: rest) with
      | some (rest2, nl) => removeBulletsFuel fuel nl rest2
      | none => c :: removeBulletsFuel fuel (isLineTerm c) rest
    else
      c :: removeBulletsFuel fuel (isLineTerm c) rest

/-- `replace(/\n{3,}/g, '\n\n')`: a maximal run of three or more newlines
becomes exactly two. -/
def collapseNlFuel : ℕ → List Char → List Char
  | 0, l => l
  | _ + 1, [] => []
  | fuel + 1, '\n' :: '\n' :: '\n' :: rest =>
    '\n' :: '\n' :: collapseNlFuel fuel (rest.dropWhile (fun c => c = '\n'))
  | fuel + 1, c :: rest => c :: collapseNlFuel fuel rest

/-- JS `String.prototype.trim`. -/
def jsTrim (l : List Char) : List Char :=
  ((l.dropWhile isJsWs).reverse.dropWhile isJsWs).reverse

/-- `cleanCorpusText(text)` (src/utils/nlp.ts lines 138-149): the eight
`replace` passes in source order, then `trim()`. -/
def cleanCorpusText (text : String) : String :=
  let l1 := removeBoldMd text.data
  let l2 := removeHashFuel (l1.length + 1) l1
  let l3 := removeMetaLinesAux [] l2
  let l4 := removePromptsFuel (l3.length + 1) l3
  let l5 := removeBracketsFuel (l4.length + 1) l4
  let l6 := l5.filter (fun c => c ≠ '_')
  let l7 := removeBulletsFuel (l6.length + 1) true l6
  let l8 := collapseNlFuel (l7.length + 1) l7
  String.mk (jsTrim l8)

/-! ## KWIC concordancer (src/utils/nlp.ts, lines 241-276) -/

/-- JS `hay.indexOf(needle, start)`: the least `i ≥ min(start, hay.length)` at
which `needle` occurs (for the empty needle that is `min(start, hay.length)`
itself); `none` models the `-1` result. -/
def indexOfFrom (hay needle : List Char) (start : ℕ) : Option ℕ :=
  (List.range (hay.length + 1)).find?
    (fun i => decide (min start hay.length ≤ i) && needle.isPrefixOf (hay.drop i))

/-- The character class of `isWordStart`: `/[\s\.,;:¡!¿?(\["']/` (line 255). -/
def isWordStartChar (c : Char) : Bool :=
  isJsWs c || c = '.' || c = ',' || c = ';' || c = ':' || c = '¡' || c = '!' ||
  c = '¿' || c = '?' || c = '(' || c = '[' || c = '"' || c = Char.ofNat 39

/-- The character class of `isWordEnd`: `/[\s\.,;:¡!¿?)\].'"]/` (line 256). -/
def isWordEndChar (c : Char) : Bool :=
  isJsWs c || c = '.' || c = ',' || c = ';' || c = ':' || c = '¡' || c = '!' ||
  c = '¿' || c = '?' || c = ')' || c = ']' || c = Char.ofNat 39 || c = '"'

/-- The word-boundary test of lines 252-256 on the lower-cased text: the
character before the match (`' '` at the string start) is an opening boundary
and the character after it (`' '` at the string end) is a closing boundary. -/
def kwicBoundaryOk (lt kw : List Char) (index : ℕ) : Bool :=
  let charBefore := if 0 < index then lt.getD (index - 1) ' ' else ' '
  let charAfter := if index + kw.length < lt.length then lt.getD (index + kw.length) ' ' else ' '
  isWordStartChar charBefore && isWordEndChar charAfter

/-- The `while (index !== -1)` scan of lines 249-272, recording the accepted
match positions.  After examining the occurrence at `index` the scan resumes at
`index + keyword.length`.  `none` models a loop that has not finished within
`fuel` iterations; for the empty keyword the resume position never advances, so
the loop runs forever and every fuel is exhausted. -/
def kwicLoop (lt kw : List Char) : ℕ → ℕ → Option (List ℕ)
  | 0, _ => none
  | fuel + 1, startIndex =>
    match indexOfFrom lt kw startIndex with
    | none => some []
    | some index =>
      match kwicLoop lt kw fuel (index + kw.length) with
      | none => none
      | some rest => some (if kwicBoundaryOk lt kw index then index :: rest else rest)

/-- The accepted match positions of one document's scan.  For a non-empty
keyword each iteration advances the start position by at least one, so
`length + 1` iterations always finish the scan. -/
def kwicDocPositions (doc : CorpusDocument) (keyword : String) : Option (List ℕ) :=
  let lt := doc.content.data.map jsToLower
  let kw := keyword.data.map jsToLower
  kwicLoop lt kw (lt.length + 1) 0

/-- The `results.push({...})` of lines 262-267 for a match at `index`:
`left` = `text.substring(max(0, index - windowSize), index)`, `node` = the
original-case matched text, `right` = `text.substring(index + keyword.length,
min(text.length, index + keyword.length + windowSize))`. -/
def mkKwicResult (doc : CorpusDocument) (keyword : String) (windowSize : ℕ)
    (index : ℕ) : KwicResult :=
  let text := doc.content.data
  let kwLen := keyword.data.length
  let stop := min text.length (index + kwLen + windowSize)
  { left := String.mk ((text.take index).drop (index - windowSize)),
    node := String.mk ((text.take (index + kwLen)).drop index),
    right := String.mk ((text.take stop).drop (index + kwLen)),
    docId := doc.title }

def generateKwicDoc (doc : CorpusDocument) (keyword : String) (windowSize : ℕ) :
    Option (List KwicResult) :=
  (kwicDocPositions doc keyword).map (fun ps => ps.map (mkKwicResult doc keyword windowSize))

/-- `generateKwic(docs, keyword, windowSize)` (src/utils/nlp.ts lines 241-276):
the per-document scans in document order.  `none` models non-termination of
some document's scan. -/
def generateKwic (docs : List CorpusDocument) (keyword : String) (windowSize : ℕ) :
    Option (List KwicResult) :=
  (docs.mapM (fun doc => generateKwicDoc doc keyword windowSize)).map List.flatten

/-! ## Frequency engine (src/utils/nlp.ts, lines 220-239) -/

/-- The ES2019+ NativeFunction string form of the inherited
`Object.prototype.constructor` — what ToPrimitive yields for it when `+`
falls back to string concatenation. -/
def objectCtorStr : String := "function Object() \x7b [native code] \x7d"

/-- `(v || 0) + 1` applied to a present (own or inherited) value: every such
value is truthy (a positive count, a non-empty string, or the constructor
function, which we represent by its ToPrimitive string), so `|| 0` keeps it;
`+ 1` is numeric addition on a number and string concatenation otherwise. -/
def jsPlusOne : JsVal → JsVal
  | JsVal.num n => JsVal.num (n + 1)
  | JsVal.str s => JsVal.str (s ++ "1")

/-- `frequencyMap[token] = (frequencyMap[token] || 0) + 1` on a plain JS
object, encoded as an association list in first-insertion order (the
enumeration order of `Object.entries` for the non-numeric keys arising here).
A missing own key falls back to the prototype chain: the only
`Object.prototype` property name the tokenizer can produce is "constructor"
(every other inherited name, such as `toString` or `hasOwnProperty`, contains
an upper-case letter the tokenizer lower-cases away, and `__proto__` loses
its underscores to the punctuation strip), and its inherited function value
makes `+ 1` concatenate; a truly absent key reads `undefined`, and
`undefined || 0` is `0`. -/
def bump (m : List (String × JsVal)) (t : String) : List (String × JsVal) :=
  match m with
  | [] =>
    if t = "constructor" then [(t, jsPlusOne (JsVal.str objectCtorStr))]
    else [(t, JsVal.num 1)]
  | (k, v) :: rest => if k = t then (k, jsPlusOne v) :: rest else (k, v) :: bump rest t

/-- `count / totalNgrams` and `count / totalTokens` as a JS number: numeric
for a numeric count; every string count arising here starts "function", is
non-numeric, coerces to NaN, and NaN propagates through the division. -/
def jsDiv (v : JsVal) (n : ℕ) : JsNum :=
  match v with
  | JsVal.num k => JsNum.val ((k : ℚ) / (n : ℚ))
  | JsVal.str _ => JsNum.nan

/-- The comparator value `b.count - a.count` as consumed by
`Array.prototype.sort`: a subtraction with a non-numeric-string operand is
NaN, and SortCompare (ES2023 §23.1.3.30.2) maps a NaN comparator result to
+0, i.e. treats the pair as equal. -/
def freqCmp (a b : TokenFrequency) : ℤ :=
  match b.count, a.count with
  | JsVal.num y, JsVal.num x => (y : ℤ) - x
  | _, _ => 0

/-- "`a` may precede `b`" under the source's comparator. -/
def freqLe (a b : TokenFrequency) : Bool := decide (freqCmp a b ≤ 0)

/-- Stable insertion into an already-processed suffix (`le a b` = "a may
precede b"; on ties the earlier-in-input element stays first). -/
def stableInsert {α : Type} (le : α → α → Bool) (a : α) : List α → List α
  | [] => [a]
  | b :: l => if le a b then a :: b :: l else b :: stableInsert le a l

/-- A stable sort.  `Array.prototype.sort` is required to be stable (ES2019+);
on the consistent all-numeric comparator this is exactly the source's
descending-by-count order, and on pairs the comparator maps to ±0 (the NaN
case) it is one of the implementation-defined stable permutations. -/
def stableSort {α : Type} (le : α → α → Bool) : List α → List α
  | [] => []
  | a :: l => stableInsert le a (stableSort le l)

/-- One `docs.forEach` step of `calculateFrequencies`: tokenize the document
(propagating its own language), count every token, add to the running total. -/
def freqStep (removeStopwords : Bool) (acc : List (String × JsVal) × ℕ)
    (doc : CorpusDocument) : List (String × JsVal) × ℕ :=
  let tokens := tokenize doc.content removeStopwords doc.language
  (tokens.foldl bump acc.1, acc.2 + tokens.length)

/-- `calculateFrequencies(docs, removeStopwords)` (src/utils/nlp.ts lines
220-239): count tokens across all documents through the plain-object map,
attach `frequency = totalTokens > 0 ? count / totalTokens : 0`, and sort with
the comparator `(a, b) => b.count - a.count`. -/
def calculateFrequencies (docs : List CorpusDocument) (removeStopwords : Bool) :
    List TokenFrequency :=
  let acc := docs.foldl (freqStep removeStopwords) ([], 0)
  let totalTokens := acc.2
  stableSort freqLe (acc.1.map (fun p =>
    { token := p.1, count := p.2,
      frequency := if 0 < totalTokens then jsDiv p.2 totalTokens else JsNum.val 0 }))

/-! ## N-gram generator (src/utils/nlp.ts, lines 172-191) -/

/-- `generateNgrams(tokens, n)` (src/utils/nlp.ts lines 172-191): empty for
`tokens.length < n`; otherwise counts the space-joined windows
`tokens.slice(i, i + n)` for `i = 0 .. tokens.length - n`, attaches
`frequency = count / (tokens.length - n + 1)`, and sorts descending by count. -/
def generateNgrams (tokens : List String) (n : ℕ) : List TokenFrequency :=
  if tokens.length < n then []
  else
    let totalNgrams := tokens.length - n + 1
    let m := (List.range totalNgrams).foldl
      (fun m i => bump m (String.intercalate " " ((tokens.drop i).take n))) []
    stableSort freqLe (m.map (fun p =>
      { token := p.1, count := p.2, frequency := jsDiv p.2 totalNgrams }))

/-! ## Sentiment scorer (src/utils/nlp.ts, lines 290-325) -/

structure Lexicon where
  pos : List String
  neg : List String

/-- `LEXICON.en` (src/utils/nlp.ts lines 291-294). -/
def LEXICON_en : Lexicon :=
  { pos := ["good", "great", "excellent", "amazing", "wonderful", "happy", "joy",
            "love", "best", "beautiful", "success", "win", "positive", "perfect",
            "better", "fun", "enjoy", "glad", "cool", "nice", "brilliant"],
    neg := ["bad", "terrible", "awful", "worst", "hate", "sad", "angry", "fail",
            "negative", "wrong", "pain", "ugly", "boring", "poor", "broken",
            "error", "stupid", "disaster", "fear", "hard", "difficult"] }

/-- `LEXICON.es` (src/utils/nlp.ts lines 295-298). -/
def LEXICON_es : Lexicon :=
  { pos := ["bueno", "bien", "excelente", "increíble", "maravilloso", "feliz",
            "alegría", "amor", "mejor", "hermoso", "éxito", "ganar", "positivo",
            "perfecto", "divertido", "disfrutar", "contento", "genial",
            "agradable", "bonito", "brillante"],
    neg := ["mal", "malo", "terrible", "peor", "odio", "triste", "enojado",
            "fallar", "negativo", "error", "dolor", "feo", "aburrido", "pobre",
            "roto", "estúpido", "desastre", "miedo", "difícil", "duro",
            "horrible"] }

/-- `lang === Language.SPANISH ? 'es' : 'en'` (line 306). -/
def lexiconFor (lang : Language) : Lexicon :=
  if lang = Language.SPANISH then LEXICON_es else LEXICON_en

/-- `parseFloat(x.toFixed(2))` modeled as exact rounding to two decimal places
(`round` is round-half-up, JS `Math`-style; the only value the claims exercise
is `0`, where every rounding convention agrees). -/
def roundTo2 (q : ℚ) : ℚ := (round (q * 100) : ℚ) / 100

/-- `analyzeSentiment(text, lang)` (src/utils/nlp.ts lines 301-325).  The call
`tokenize(text)` uses the tokenizer's defaults: no stopword removal, English. -/
def analyzeSentiment (text : String) (lang : Language) : SentimentResult :=
  let tokens := tokenize text false Language.ENGLISH
  if tokens = [] then { score := 0, label := SentimentLabel.Neutral }
  else
    let lexicon := lexiconFor lang
    let score : ℤ := tokens.foldl
      (fun s t => s + (if lexicon.pos.contains t then 1 else 0)
                    + (if lexicon.neg.contains t then -1 else 0)) 0
    let relevantTokens := (tokens.filter
      (fun t => lexicon.pos.contains t || lexicon.neg.contains t)).length
    let normalizedScore : ℚ :=
      if 0 < relevantTokens then (score : ℚ) / (relevantTokens : ℚ) else 0
    let label :=
      if normalizedScore > 1/10 then SentimentLabel.Positive
      else if normalizedScore < -(1/10) then SentimentLabel.Negative
      else SentimentLabel.Neutral
    { score := roundTo2 normalizedScore, label := label }

/-! ## POS aggregator (src/components/AnalysisView.tsx, lines 64-95) -/

def posAdd (a b : PosBreakdown) : PosBreakdown :=
  { nouns := a.nouns + b.nouns, verbs := a.verbs + b.verbs,
    adjectives := a.adjectives + b.adjectives, adverbs := a.adverbs + b.adverbs,
    pronouns := a.pronouns + b.pronouns, determiners := a.determiners + b.determiners,
    conjunctions := a.conjunctions + b.conjunctions, others := a.others + b.others }

def posZero : PosBreakdown := ⟨0, 0, 0, 0, 0, 0, 0, 0⟩

/-- One `filteredDocuments.forEach` step (lines 68-80): documents carrying a
`posData` are summed field-wise and counted, the rest are skipped. -/
def posStep (acc : PosBreakdown × ℕ) (doc : CorpusDocument) : PosBreakdown × ℕ :=
  match doc.posData with
  | some pd => (posAdd acc.1 pd, acc.2 + 1)
  | none => acc

/-- The field-wise `Math.round(total.x / count)` of lines 85-94. -/
def posAvg (total : PosBreakdown) (count : ℕ) : PosBreakdown :=
  { nouns := round ((total.nouns : ℚ) / (count : ℚ)),
    verbs := round ((total.verbs : ℚ) / (count : ℚ)),
    adjectives := round ((total.adjectives : ℚ) / (count : ℚ)),
    adverbs := round ((total.adverbs : ℚ) / (count : ℚ)),
    pronouns := round ((total.pronouns : ℚ) / (count : ℚ)),
    determiners := round ((total.determiners : ℚ) / (count : ℚ)),
    conjunctions := round ((total.conjunctions : ℚ) / (count : ℚ)),
    others := round ((total.others : ℚ) / (count : ℚ)) }

/-- `aggregatedPosData` (src/components/AnalysisView.tsx lines 64-95): `null`
when no document carries a `posData`, otherwise the field-wise independently
rounded averages over the qualifying documents. -/
def aggregatedPosData (docs : List CorpusDocument) : Option PosBreakdown :=
  let acc := docs.foldl posStep (posZero, 0)
  if acc.2 = 0 then none else some (posAvg acc.1 acc.2)

/-! ## Helper lemmas -/

theorem dropWhile_isJsWs_replicate_space (k : ℕ) :
    List.dropWhile isJsWs (List.replicate k ' ') = [] := by
  induction k with
  | zero => rfl
  | succ k ih =>
    rw [List.replicate_succ, List.dropWhile_cons, if_pos (show isJsWs ' ' = true from rfl)]
    exact ih

theorem map_jsToLower_replicate_space (n : ℕ) :
    (List.replicate n ' ').map jsToLower = List.replicate n ' ' := by
  rw [List.map_replicate]; rfl

theorem filter_punct_replicate_space (n : ℕ) :
    (List.replicate n ' ').filter (fun c => !isTokenPunct c) = List.replicate n ' ' :=
  List.filter_eq_self.mpr (fun a ha => by rw [List.eq_of_mem_replicate ha]; rfl)

theorem collapseWsFuel_nil (fuel : ℕ) : collapseWsFuel (fuel + 1) [] = [] := rfl

theorem collapseWs_replicate_space (n : ℕ) :
    collapseWs (List.replicate n ' ') = if n = 0 then [] else [' '] := by
  match n with
  | 0 => rfl
  | 1 => rfl
  | n + 2 =>
    rw [collapseWs]
    simp only [List.length_replicate]
    rw [List.replicate_succ, collapseWsFuel]
    rw [List.replicate_succ, if_pos (by simp [isJsWs])]
    rw [← List.replicate_succ, dropWhile_isJsWs_replicate_space, collapseWsFuel_nil]
    simp

/-! ## Claim C2: tokenizing empty / whitespace-only text

The claim fails as stated: a single non-space whitespace character such as
`"\n"` is not collapsed by `replace(/\s{2,}/g, " ")` (the run has length 1),
is not a split separator (`split(" ")` splits on spaces only), and is not
dropped by the length filter, so it survives as a token.  The amended claim
restricts the input to texts made of space characters only. -/

/-- C2 counterexample: `"\n"` is whitespace-only (in the sense of JS `\s`),
yet `tokenize` returns the one-element sequence `["\n"]`, not the empty
sequence. -/
theorem c2_counterexample :
    (∀ c ∈ ("\n" : String).data, isJsWs c = true) ∧
    tokenize "\n" false Language.ENGLISH = ["\n"] ∧
    tokenize "\n" false Language.ENGLISH ≠ [] := by decide

/-- C2 (amended): for every input text that is empty or consists only of space
characters, `tokenize` returns the empty sequence, for every stopword flag and
every language (and, being a total function, it never fails). -/
theorem c2_tokenize_spaces_empty (text : String) (removeStopwords : Bool)
    (lang : Language) (h : ∀ c ∈ text.data, c = ' ') :
    tokenize text removeStopwords lang = [] := by
  obtain ⟨n, hrep⟩ : ∃ n, text.data = List.replicate n ' ' :=
    ⟨text.data.length, List.eq_replicate_iff.mpr ⟨rfl, h⟩⟩
  simp only [tokenize, hrep, map_jsToLower_replicate_space, filter_punct_replicate_space,
    collapseWs_replicate_space]
  rcases n with _ | n
  · cases removeStopwords <;> simp [splitOnSpace]
  · rw [if_neg (Nat.succ_ne_zero n)]
    have hsplit :
        List.filter (fun t => decide (t.length > 0)) (List.map String.mk (splitOnSpace [' '])) =
          [] := by decide
    cases removeStopwords <;> simp [hsplit]

/-- C2 witness: a concrete all-space text tokenizes to the empty sequence. -/
theorem c2_witness : tokenize "   " true Language.SPANISH = [] :=
  c2_tokenize_spaces_empty "   " true Language.SPANISH (by decide)

/-! ## Claim C3: the normalizer is not idempotent

`cleanCorpusText` removes `**` before it removes bracketed placeholders, so
removing `[]` from `*[]*` juxtaposes the two remaining asterisks into a fresh
`**` that only a second run deletes. -/

/-- C3: `cleanCorpusText` evaluated at the failing input `"*[]*"`: one run
leaves `"**"`, a second run erases it, so the composition differs from a
single run and idempotence fails. -/
theorem c3_clean_not_idempotent :
    cleanCorpusText "*[]*" = "**" ∧
    cleanCorpusText (cleanCorpusText "*[]*") = "" ∧
    cleanCorpusText (cleanCorpusText "*[]*") ≠ cleanCorpusText "*[]*" := by decide

/-! ## Claim C9: degenerate n-grams -/

/-- C9: for every token sequence and every `n ≥ 2` with fewer than `n` tokens,
`generateNgrams` returns the empty sequence. -/
theorem c9_ngrams_degenerate (tokens : List String) (n : ℕ) (_h2 : 2 ≤ n)
    (h : tokens.length < n) : generateNgrams tokens n = [] := by
  rw [generateNgrams, if_pos h]

/-- C9 witness. -/
theorem c9_witness : generateNgrams ["a"] 2 = [] :=
  c9_ngrams_degenerate ["a"] 2 (by decide) (by decide)

/-! ## Claim C10: default tokenization is language-independent -/

/-- C10: with stopword removal off, `tokenize` ignores the language argument
entirely — the sequence the sentiment scorer works on (it calls the tokenizer
with the stopword flag off) never depends on any stopword set. -/
theorem c10_tokenize_lang_independent (text : String) (l1 l2 : Language) :
    tokenize text false l1 = tokenize text false l2 := by
  simp [tokenize]

/-! ## Claim C1: the empty-keyword KWIC scan never terminates

`indexOf("", startIndex)` returns `min(startIndex, length)` and the scan
resumes at `index + keyword.length = index`, so for an empty keyword the
`while` loop revisits the same position forever on any document. -/

theorem indexOfFrom_nil_isSome (hay : List Char) (s : ℕ) :
    (indexOfFrom hay [] s).isSome = true := by
  rw [indexOfFrom, List.find?_isSome]
  exact ⟨hay.length, by simp [List.mem_range], by simp [List.isPrefixOf]⟩

theorem kwicLoop_empty_keyword (lt : List Char) :
    ∀ fuel s, kwicLoop lt [] fuel s = none := by
  intro fuel
  induction fuel with
  | zero => intro s; rfl
  | succ fuel ih =>
    intro s
    rw [kwicLoop]
    obtain ⟨i, hi⟩ := Option.isSome_iff_exists.mp (indexOfFrom_nil_isSome lt s)
    rw [hi]
    simp [ih]

/-- C1: the claim that `generateKwic` with an empty keyword returns the empty
result sequence fails on every non-empty document set — the scan diverges
(exhausts every fuel).  Only the empty document set produces `[]`, because no
scan is started. -/
theorem c1_kwic_empty_keyword_hangs :
    generateKwic [] "" 60 = some [] ∧
    generateKwic [⟨"doc", "x", Language.ENGLISH, none⟩] "" 60 = none ∧
    (∀ fuel s, kwicLoop ("x".data.map jsToLower) [] fuel s = none) :=
  ⟨by decide, by decide, fun fuel s => kwicLoop_empty_keyword _ fuel s⟩

/-! ## Claim C4: KWIC word boundaries

The "only if" direction holds: every accepted position passed the source's
boundary test, and the keyword occurs there in the lower-cased text.  The "if"
direction fails: the scan resumes after the end of each examined occurrence, so
a boundary-valid occurrence that overlaps an earlier examined one is never
tested (keyword `"a a"` in `"a a a"`: occurrences at 0 and 2 are both
boundary-valid, but only position 0 is returned). -/

theorem kwicLoop_mem_boundary (lt kw : List Char) :
    ∀ (fuel s : ℕ) (ps : List ℕ), kwicLoop lt kw fuel s = some ps →
      ∀ i ∈ ps, kwicBoundaryOk lt kw i = true ∧ kw.isPrefixOf (lt.drop i) = true := by
  intro fuel
  induction fuel with
  | zero => intro s ps h; cases h
  | succ fuel ih =>
    intro s ps h
    rw [kwicLoop] at h
    revert h
    cases hidx : indexOfFrom lt kw s with
    | none =>
      intro h
      injection h with h
      subst h
      intro i hi
      cases hi
    | some index =>
      intro h
      dsimp only at h
      have hocc : kw.isPrefixOf (lt.drop index) = true := by
        rw [indexOfFrom] at hidx
        have hp := List.find?_some hidx
        simp only [Bool.and_eq_true] at hp
        exact hp.2
      revert h
      cases hrec : kwicLoop lt kw fuel (index + kw.length) with
      | none => intro h; cases h
      | some rest =>
        intro h
        injection h with h
        subst h
        intro i hi
        by_cases hb : kwicBoundaryOk lt kw index = true
        · rw [if_pos hb] at hi
          rcases List.mem_cons.mp hi with hieq | himem
          · subst hieq; exact ⟨hb, hocc⟩
          · exact ih (index + kw.length) rest hrec i himem
        · rw [if_neg hb] at hi
          exact ih (index + kw.length) rest hrec i hi

/-- The document of the spec's word-boundary example. -/
def catDoc : CorpusDocument :=
  ⟨"catdoc", "concatenate the cat sat", Language.ENGLISH, none⟩

/-- C4 (amended): for every document and non-empty keyword, every match
position the scan accepts satisfies the source's boundary test (opening
boundary before, closing boundary after) and carries a case-insensitive
occurrence of the keyword; the converse direction of the original claim is
dropped, because the scan resumes after each examined occurrence and so skips
boundary-valid occurrences that overlap an earlier one.  In particular,
searching "cat" in "concatenate the cat sat" returns exactly one match, the
standalone "cat". -/
theorem c4_kwic_boundary_necessary :
    (∀ (doc : CorpusDocument) (keyword : String) (ps : List ℕ), keyword ≠ "" →
        kwicDocPositions doc keyword = some ps →
        ∀ i ∈ ps,
          kwicBoundaryOk (doc.content.data.map jsToLower) (keyword.data.map jsToLower) i =
              true ∧
            (keyword.data.map jsToLower).isPrefixOf
                ((doc.content.data.map jsToLower).drop i) = true) ∧
    generateKwic [catDoc] "cat" 60 =
      some [⟨"concatenate the ", "cat", " sat", "catdoc"⟩] := by
  refine ⟨?_, by decide⟩
  intro doc keyword ps _ h
  simp only [kwicDocPositions] at h
  exact kwicLoop_mem_boundary _ _ _ _ ps h

/-- C4 counterexample: with keyword `"a a"` and document text `"a a a"`, the
occurrence at position 2 is boundary-valid (space before, end-of-string after)
yet the scan accepts only position 0, so "accepted exactly when the boundary
conditions hold" fails. -/
theorem c4_counterexample :
    kwicDocPositions ⟨"aaa", "a a a", Language.ENGLISH, none⟩ "a a" = some [0] ∧
    ("a a".data.map jsToLower).isPrefixOf (("a a a".data.map jsToLower).drop 2) = true ∧
    kwicBoundaryOk ("a a a".data.map jsToLower) ("a a".data.map jsToLower) 2 = true ∧
    (2 : ℕ) ∉ ([0] : List ℕ) := by decide

/-- C4 witness: the amended theorem applied to the accepted position 16 of the
"cat" example. -/
theorem c4_witness :
    kwicBoundaryOk ("concatenate the cat sat".data.map jsToLower)
      ("cat".data.map jsToLower) 16 = true :=
  ((c4_kwic_boundary_necessary.1 catDoc "cat" [16] (by decide) (by decide)) 16 (by decide)).1

/-! ## Claims C5 and C6: the prototype-chain accident in the frequency map

`calculateFrequencies` counts into a plain object with
`frequencyMap[token] = (frequencyMap[token] || 0) + 1`.  The tokenizer can
produce the ordinary English token "constructor", whose first read finds the
inherited, truthy `Object.prototype.constructor`; `+ 1` then
string-concatenates, and the installed count is the non-numeric string
`"function Object() { [native code] }1"`.  On such inputs both §8 frequency
properties fail in the program: the counts no longer sum to the token total
(claim C5), and the descending order fails because every comparison against
the string count goes through NaN and is false (claim C6). -/

/-- C5: frequency conservation fails on the program.  For the one-document set
whose content is "constructor", tokenization yields exactly one token, but the
single returned entry carries the concatenated string as its count — not the
number 1 and not any number — so the sum of counts cannot equal the total
token count. -/
theorem c5_frequency_conservation_fails :
    calculateFrequencies [⟨"d", "constructor", Language.ENGLISH, none⟩] false =
      [{ token := "constructor", count := JsVal.str (objectCtorStr ++ "1"),
         frequency := JsNum.nan }] ∧
    (tokenize "constructor" false Language.ENGLISH).length = 1 ∧
    (∀ k : ℕ, JsVal.str (objectCtorStr ++ "1") ≠ JsVal.num k) :=
  ⟨by decide, by decide, fun _ h => JsVal.noConfusion h⟩

/-- JS `>=` on the values stored in the frequency map: numeric when both
operands are numbers, lexicographic when both are strings; a mixed pair
coerces the string with ToNumber, which is NaN for the non-numeric strings
arising here, and every NaN comparison is false. -/
def jsGe : JsVal → JsVal → Bool
  | JsVal.num x, JsVal.num y => decide (y ≤ x)
  | JsVal.str s, JsVal.str t => decide (t ≤ s)
  | JsVal.num _, JsVal.str _ => false
  | JsVal.str _, JsVal.num _ => false

/-- C6: the sort-order claim fails on the program.  With content
"constructor aaa aaa" the returned entries carry the counts
[string, 2] (the comparator value against the string count is NaN, treated as
±0, so the stable sort keeps insertion order), and
`result[0].count >= result[1].count` is false because a comparison on the
non-numeric string count is a NaN comparison — as is the opposite order some
other engine's sort might produce. -/
theorem c6_frequency_sort_fails :
    (calculateFrequencies [⟨"d", "constructor aaa aaa", Language.ENGLISH, none⟩]
        false).map (fun f => f.count) =
      [JsVal.str (objectCtorStr ++ "1"), JsVal.num 2] ∧
    jsGe (JsVal.str (objectCtorStr ++ "1")) (JsVal.num 2) = false ∧
    jsGe (JsVal.num 2) (JsVal.str (objectCtorStr ++ "1")) = false := by decide

/-! ## Claim C7: sentiment of lexicon-free text -/

theorem sentiment_foldl_zero (lex : Lexicon) (ts : List String)
    (h : ∀ t ∈ ts, lex.pos.contains t = false ∧ lex.neg.contains t = false) :
    ∀ s : ℤ,
      ts.foldl (fun s t => s + (if lex.pos.contains t then 1 else 0)
        + (if lex.neg.contains t then -1 else 0)) s = s := by
  induction ts with
  | nil => intro s; rfl
  | cons t ts ih =>
    intro s
    rw [List.foldl_cons]
    have h1 := (h t (List.mem_cons_self t ts)).1
    have h2 := (h t (List.mem_cons_self t ts)).2
    rw [if_neg (by rw [h1]; exact Bool.false_ne_true),
      if_neg (by rw [h2]; exact Bool.false_ne_true)]
    have := ih (fun u hu => h u (List.mem_cons_of_mem t hu)) s
    simpa using this

/-- C7: whenever no token of the default tokenization occurs in the selected
lexicon's positive or negative list (including the empty-token case), the
sentiment scorer returns `{score: 0, label: Neutral}` — no division by zero
occurs because the zero relevant-token count takes the guarded branch. -/
theorem c7_sentiment_neutral (text : String) (lang : Language)
    (h : ∀ t ∈ tokenize text false Language.ENGLISH,
      (lexiconFor lang).pos.contains t = false ∧
        (lexiconFor lang).neg.contains t = false) :
    analyzeSentiment text lang = { score := 0, label := SentimentLabel.Neutral } := by
  by_cases h0 : tokenize text false Language.ENGLISH = []
  · simp [analyzeSentiment, h0]
  · simp only [analyzeSentiment, if_neg h0]
    rw [sentiment_foldl_zero (lexiconFor lang) _ h 0]
    have hfil : (tokenize text false Language.ENGLISH).filter
        (fun t => (lexiconFor lang).pos.contains t ||
          (lexiconFor lang).neg.contains t) = [] := by
      rw [List.filter_eq_nil_iff]
      intro a ha hc
      rw [Bool.or_eq_true] at hc
      rcases hc with hc | hc
      · rw [(h a ha).1] at hc; cases hc
      · rw [(h a ha).2] at hc; cases hc
    rw [hfil]
    norm_num [roundTo2]

/-- C7 witness: a concrete text with no lexicon hits. -/
theorem c7_witness :
    analyzeSentiment "zzz qqq" Language.SPANISH =
      { score := 0, label := SentimentLabel.Neutral } :=
  c7_sentiment_neutral "zzz qqq" Language.SPANISH (by decide)

/-! ## Claim C8: POS aggregation -/

theorem posAdd_zero (a : PosBreakdown) : posAdd a posZero = a := by
  cases a
  simp [posAdd, posZero]

theorem zero_posAdd (a : PosBreakdown) : posAdd posZero a = a := by
  cases a
  simp [posAdd, posZero]

theorem posAdd_assoc (a b c : PosBreakdown) :
    posAdd (posAdd a b) c = posAdd a (posAdd b c) := by
  cases a
  cases b
  cases c
  simp [posAdd, add_assoc]

/-- Field-wise sum of a list of breakdowns. -/
def posSum (l : List PosBreakdown) : PosBreakdown := l.foldr posAdd posZero

theorem pos_foldl (docs : List CorpusDocument) :
    ∀ acc : PosBreakdown × ℕ,
      docs.foldl posStep acc =
        (posAdd acc.1 (posSum (docs.filterMap (fun d => d.posData))),
          acc.2 + (docs.filterMap (fun d => d.posData)).length) := by
  induction docs with
  | nil =>
    intro acc
    simp [posSum, posAdd_zero]
  | cons d ds ih =>
    intro acc
    rw [List.foldl_cons, ih (posStep acc d)]
    cases hd : d.posData with
    | none =>
      rw [List.filterMap_cons_none hd]
      simp [posStep, hd]
    | some pd =>
      rw [List.filterMap_cons_some hd]
      simp only [posStep, hd, posSum, List.foldr_cons, List.length_cons]
      rw [posAdd_assoc,
        show List.filterMap CorpusDocument.posData ds =
          List.filterMap (fun d => d.posData) ds from rfl]
      congr 1
      omega

theorem posSum_nouns (l : List PosBreakdown) :
    (posSum l).nouns = (l.map (fun p => p.nouns)).sum := by
  induction l with
  | nil => rfl
  | cons hd tl ih =>
    simp only [posSum, List.foldr_cons] at ih ⊢
    simp [posAdd, ih]

theorem posSum_verbs (l : List PosBreakdown) :
    (posSum l).verbs = (l.map (fun p => p.verbs)).sum := by
  induction l with
  | nil => rfl
  | cons hd tl ih =>
    simp only [posSum, List.foldr_cons] at ih ⊢
    simp [posAdd, ih]

theorem posSum_adjectives (l : List PosBreakdown) :
    (posSum l).adjectives = (l.map (fun p => p.adjectives)).sum := by
  induction l with
  | nil => rfl
  | cons hd tl ih =>
    simp only [posSum, List.foldr_cons] at ih ⊢
    simp [posAdd, ih]

theorem posSum_adverbs (l : List PosBreakdown) :
    (posSum l).adverbs = (l.map (fun p => p.adverbs)).sum := by
  induction l with
  | nil => rfl
  | cons hd tl ih =>
    simp only [posSum, List.foldr_cons] at ih ⊢
    simp [posAdd, ih]

theorem posSum_pronouns (l : List PosBreakdown) :
    (posSum l).pronouns = (l.map (fun p => p.pronouns)).sum := by
  induction l with
  | nil => rfl
  | cons hd tl ih =>
    simp only [posSum, List.foldr_cons] at ih ⊢
    simp [posAdd, ih]

theorem posSum_determiners (l : List PosBreakdown) :
    (posSum l).determiners = (l.map (fun p => p.determiners)).sum := by
  induction l with
  | nil => rfl
  | cons hd tl ih =>
    simp only [posSum, List.foldr_cons] at ih ⊢
    simp [posAdd, ih]

theorem posSum_conjunctions (l : List PosBreakdown) :
    (posSum l).conjunctions = (l.map (fun p => p.conjunctions)).sum := by
  induction l with
  | nil => rfl
  | cons hd tl ih =>
    simp only [posSum, List.foldr_cons] at ih ⊢
    simp [posAdd, ih]

theorem posSum_others (l : List PosBreakdown) :
    (posSum l).others = (l.map (fun p => p.others)).sum := by
  induction l with
  | nil => rfl
  | cons hd tl ih =>
    simp only [posSum, List.foldr_cons] at ih ⊢
    simp [posAdd, ih]

/-- C8: the aggregator returns `null` exactly when no document carries a
`posData` breakdown (in particular for the empty set); otherwise it returns,
for each of the eight category fields, the sum of that field over the
qualifying documents divided by the qualifying count, each field rounded to
the nearest integer independently (`Math.round`, i.e. half rounds up), with no
renormalization to 100. -/
theorem c8_pos_aggregation (docs : List CorpusDocument) :
    (aggregatedPosData docs = none ↔ ∀ d ∈ docs, d.posData = none) ∧
    aggregatedPosData docs =
      (if (docs.filterMap (fun d => d.posData)).length = 0 then none
       else some (posAvg (posSum (docs.filterMap (fun d => d.posData)))
         (docs.filterMap (fun d => d.posData)).length)) ∧
    ∀ (l : List PosBreakdown) (c : ℕ),
      (posAvg (posSum l) c).nouns =
          round ((((l.map (fun p => p.nouns)).sum : ℤ) : ℚ) / (c : ℚ)) ∧
        (posAvg (posSum l) c).verbs =
          round ((((l.map (fun p => p.verbs)).sum : ℤ) : ℚ) / (c : ℚ)) ∧
        (posAvg (posSum l) c).adjectives =
          round ((((l.map (fun p => p.adjectives)).sum : ℤ) : ℚ) / (c : ℚ)) ∧
        (posAvg (posSum l) c).adverbs =
          round ((((l.map (fun p => p.adverbs)).sum : ℤ) : ℚ) / (c : ℚ)) ∧
        (posAvg (posSum l) c).pronouns =
          round ((((l.map (fun p => p.pronouns)).sum : ℤ) : ℚ) / (c : ℚ)) ∧
        (posAvg (posSum l) c).determiners =
          round ((((l.map (fun p => p.determiners)).sum : ℤ) : ℚ) / (c : ℚ)) ∧
        (posAvg (posSum l) c).conjunctions =
          round ((((l.map (fun p => p.conjunctions)).sum : ℤ) : ℚ) / (c : ℚ)) ∧
        (posAvg (posSum l) c).others =
          round ((((l.map (fun p => p.others)).sum : ℤ) : ℚ) / (c : ℚ)) := by
  have hfold := pos_foldl docs (posZero, 0)
  refine ⟨?_, ?_, ?_⟩
  · rw [aggregatedPosData, hfold]
    simp only [zero_posAdd, Nat.zero_add]
    constructor
    · intro hnone
      by_cases hlen : (docs.filterMap (fun d => d.posData)).length = 0
      · intro d hd
        have hnil := List.length_eq_zero.mp hlen
        rw [List.filterMap_eq_nil_iff] at hnil
        exact hnil d hd
      · rw [if_neg hlen] at hnone
        cases hnone
    · intro hall
      have hnil : docs.filterMap (fun d => d.posData) = [] :=
        List.filterMap_eq_nil_iff.mpr hall
      rw [if_pos (by rw [hnil]; rfl)]
  · rw [aggregatedPosData, hfold]
    simp only [zero_posAdd, Nat.zero_add]
  · intro l c
    refine ⟨?_, ?_, ?_, ?_, ?_, ?_, ?_, ?_⟩ <;>
      simp [posAvg, posSum_nouns, posSum_verbs, posSum_adjectives, posSum_adverbs,
        posSum_pronouns, posSum_determiners, posSum_conjunctions, posSum_others]

end Cmbi
